import Mathlib

/-!
Verification of the video-styler client (`src/components/Processor.tsx` and
`src/app/page.tsx`) against its specification.

The component keeps React state (file, input/output object URLs, busy flag,
progress text, selected style, slow-motion toggle) and a `process` callback
that loads the ffmpeg engine, writes the input file, runs a primary argument
list built from the selected style, retries once with a style-chosen fallback
argument list on failure, and reads the output back.  We embed the state as a
structure, the side effects of a `process` run as a list of events, and the
engine's behaviour (which calls succeed or throw) as an environment record.
-/

namespace VideoStyler

/-- The `StyleKey` union type of `src/lib/ffmpeg.ts`, as used by
`Processor.tsx`: the four style keys of the catalog. -/
inductive StyleKey where
  | cinematic
  | action
  | aesthetic
  | realistic
  deriving DecidableEq

/-- One record of the `STYLES` catalog in `Processor.tsx`: a stable key, a
display name and a short description. -/
structure StyleRec where
  key : StyleKey
  name : String
  desc : String
  deriving DecidableEq

/-- The `STYLES` constant of `Processor.tsx`, in source order. -/
def STYLES : List StyleRec :=
  [⟨.cinematic, "Cinematic Hero", "Deep shadows, neon, slow-mo vibe"⟩,
   ⟨.action, "Action Style", "Fast, punchy, sharpened, stabilized"⟩,
   ⟨.aesthetic, "Aesthetic Smooth", "Pastel, creamy, dreamy glow"⟩,
   ⟨.realistic, "Realistic Upgrade", "Clean, natural, 4K upscale"⟩]

/-- The slow-motion checkbox in `Processor.tsx` is rendered under the guard
`style === "cinematic"`: the sub-option is offered for that key only. -/
def showsSlowMoOption (k : StyleKey) : Bool := k == StyleKey.cinematic

/-- Modelled from the spec: `buildArgs` lives in `src/lib/ffmpeg.ts`, which is
not among the repository files available here (only its caller
`Processor.tsx` is).  The spec describes it as "a fixed table mapping a style
key to an argument list" and says the transformation logic is "pick one of
five hardcoded argument lists and hand them to a third-party binary": four
style keys, with the cinematic key's boolean slow-motion sub-option selecting
between two variants, give five pairwise-distinct hardcoded argument lists.
The concrete strings are not recoverable from the spec; the model fixes five
distinct literal lists in the call convention visible in the fallback lists of
`Processor.tsx`. -/
def buildArgs : StyleKey → Bool → List String
  | .cinematic, true =>
      ["-i", "input.mp4", "-vf",
       "format=yuv420p,eq=contrast=1.2:brightness=-0.03:saturation=1.08:gamma=0.95,curves=preset=medium_contrast,vignette=PI/6:0.5,minterpolate=fps=60,setpts=2.0*PTS",
       "-c:v", "mpeg4", "-q:v", "5", "-an", "-movflags", "+faststart", "output.mp4"]
  | .cinematic, false =>
      ["-i", "input.mp4", "-vf",
       "format=yuv420p,eq=contrast=1.2:brightness=-0.03:saturation=1.08:gamma=0.95,curves=preset=medium_contrast,vignette=PI/6:0.5",
       "-c:v", "mpeg4", "-q:v", "5", "-an", "-movflags", "+faststart", "output.mp4"]
  | .action, _ =>
      ["-i", "input.mp4", "-vf",
       "format=yuv420p,deshake,eq=contrast=1.3:saturation=1.15:gamma=0.92,unsharp=5:5:1.1",
       "-c:v", "mpeg4", "-q:v", "5", "-an", "-movflags", "+faststart", "output.mp4"]
  | .aesthetic, _ =>
      ["-i", "input.mp4", "-vf",
       "format=yuv420p,hqdn3d=1.5:1.5:6:6,gblur=sigma=0.8,eq=contrast=1.05:brightness=0.03:saturation=0.96",
       "-c:v", "mpeg4", "-q:v", "5", "-an", "-movflags", "+faststart", "output.mp4"]
  | .realistic, _ =>
      ["-i", "input.mp4", "-vf",
       "format=yuv420p,hqdn3d=1.0:1.0:4:4,eq=contrast=1.06:saturation=1.02,unsharp=3:3:0.6,scale=3840:-2:flags=lanczos",
       "-c:v", "mpeg4", "-q:v", "5", "-an", "-movflags", "+faststart", "output.mp4"]

/-- The fallback argument lists hardcoded in the inner catch of `process`
(`Processor.tsx`): one simplified list per style key, the trailing `else`
branch covering the cinematic key. -/
def fallbackArgs : StyleKey → List String
  | .action =>
      ["-i", "input.mp4", "-vf",
       "format=yuv420p,eq=contrast=1.3:saturation=1.15:gamma=0.92,unsharp=5:5:1.1",
       "-c:v", "mpeg4", "-q:v", "5", "-an", "-movflags", "+faststart", "output.mp4"]
  | .aesthetic =>
      ["-i", "input.mp4", "-vf",
       "format=yuv420p,hqdn3d=1.5:1.5:6:6,eq=contrast=1.05:brightness=0.03:saturation=0.96",
       "-c:v", "mpeg4", "-q:v", "5", "-an", "-movflags", "+faststart", "output.mp4"]
  | .realistic =>
      ["-i", "input.mp4", "-vf",
       "format=yuv420p,hqdn3d=1.0:1.0:4:4,eq=contrast=1.06:saturation=1.02,unsharp=3:3:0.6,scale=3840:-2:flags=lanczos",
       "-c:v", "mpeg4", "-q:v", "5", "-an", "-movflags", "+faststart", "output.mp4"]
  | .cinematic =>
      ["-i", "input.mp4", "-vf",
       "format=yuv420p,eq=contrast=1.2:brightness=-0.03:saturation=1.08:gamma=0.95,curves=preset=medium_contrast,vignette=PI/6:0.5",
       "-c:v", "mpeg4", "-q:v", "5", "-an", "-movflags", "+faststart", "output.mp4"]

/-- The React state of the `Processor` component.  A `File` is modelled by an
identifying string; object URLs are strings. -/
structure AppState where
  file : Option String
  inputUrl : Option String
  outputUrl : Option String
  busy : Bool
  progressText : String
  style : StyleKey
  slowMo : Bool
  deriving DecidableEq

/-- Model of `URL.createObjectURL`: a fresh URL naming the blob. -/
def objectURL (f : String) : String := "blob:" ++ f

/-- The `onPickFile` callback: store the file, point the input preview at its
object URL, and clear any previous output URL. -/
def onPickFile (f : String) (st : AppState) : AppState :=
  { st with file := some f, inputUrl := some (objectURL f), outputUrl := none }

/-- The `onFileInput` change handler: `e.target.files?.[0]` is the optional
argument; a missing file leaves the state alone. -/
def onFileInput : Option String → AppState → AppState
  | some f, st => onPickFile f st
  | none, st => st

/-- The `onDrop` handler: after `preventDefault`, `e.dataTransfer.files?.[0]`
is handed to `onPickFile` exactly as in `onFileInput`. -/
def onDrop : Option String → AppState → AppState
  | some f, st => onPickFile f st
  | none, st => st

/-- The `isReady` memo of `Processor.tsx`: `!!file && !busy`. -/
def isReady (st : AppState) : Bool := st.file.isSome && !st.busy

/-- The Process button carries `disabled={!isReady}`. -/
def processDisabled (st : AppState) : Bool := !isReady st

/-- The behaviour of the external engine during one run of `process`: which
awaited call throws, and with what message.  `execError` is consulted on the
argument list of each `ffmpeg.exec` call; `outputBlob` names the blob
`readOutputFile` returns on success. -/
structure ExecEnv where
  loadError : Option String
  writeError : Option String
  execError : List String → Option String
  readError : Option String
  outputBlob : String

/-- The status text of the outer catch:
`"Failed: " + (e?.message || "Unknown error")`; an empty message is falsy in
JavaScript, so it also falls back to "Unknown error". -/
def failedText (e : String) : String :=
  "Failed: " ++ (if e = "" then "Unknown error" else e)

/-- One observable side effect of a `process` run: a state-setter call or an
invocation of `ffmpeg.exec`. -/
inductive Ev where
  | setFile (f : Option String)
  | setInputUrl (u : Option String)
  | setOutputUrl (u : Option String)
  | setBusy (b : Bool)
  | setProgress (m : String)
  | execCall (args : List String)
  deriving DecidableEq

/-- Effect of one event on the component state; an `execCall` leaves the
React state untouched. -/
def applyEv (st : AppState) : Ev → AppState
  | .setFile f => { st with file := f }
  | .setInputUrl u => { st with inputUrl := u }
  | .setOutputUrl u => { st with outputUrl := u }
  | .setBusy b => { st with busy := b }
  | .setProgress m => { st with progressText := m }
  | .execCall _ => st

/-- Fold a list of events over a state, in order. -/
def applyEvs (st : AppState) (evs : List Ev) : AppState := evs.foldl applyEv st

/-- Events of the tail of the try block: "Exporting...", then either the
outer catch on a `readOutputFile` failure, or setting the output URL and
"Done". -/
def exportEvents (env : ExecEnv) : List Ev :=
  Ev.setProgress "Exporting..." ::
    match env.readError with
    | some e => [Ev.setProgress (failedText e)]
    | none => [Ev.setOutputUrl (some (objectURL env.outputBlob)), Ev.setProgress "Done"]

/-- Events of the primary `ffmpeg.exec` call and its inner catch: on a
primary failure, exactly one fallback `exec` with the style-chosen simplified
list; a fallback failure propagates to the outer catch. -/
def execEvents (env : ExecEnv) (style : StyleKey) (slowMo : Bool) : List Ev :=
  let args := buildArgs style slowMo
  Ev.execCall args ::
    match env.execError args with
    | none => exportEvents env
    | some _ =>
      Ev.execCall (fallbackArgs style) ::
        match env.execError (fallbackArgs style) with
        | some e => [Ev.setProgress (failedText e)]
        | none => exportEvents env

/-- The full event trace of one call of the `process` callback, mirroring its
source line by line: the `if (!file) return` guard, `setBusy(true)`, the
progress messages, the engine calls of the try block with the inner and
outer catches, and the `finally { setBusy(false) }`. -/
def processTrace (env : ExecEnv) (st : AppState) : List Ev :=
  match st.file with
  | none => []
  | some _ =>
    Ev.setBusy true :: Ev.setProgress "Loading ffmpeg..." ::
      ((match env.loadError with
        | some e => [Ev.setProgress (failedText e)]
        | none =>
          Ev.setProgress "Preparing input..." ::
            match env.writeError with
            | some e => [Ev.setProgress (failedText e)]
            | none =>
              Ev.setProgress "Applying style..." :: execEvents env st.style st.slowMo)
       ++ [Ev.setBusy false])

/-- The state after one call of `process` has terminated. -/
def process (env : ExecEnv) (st : AppState) : AppState :=
  applyEvs st (processTrace env st)

/-- The argument lists handed to `ffmpeg.exec`, in order, during a run. -/
def execCallsOf (evs : List Ev) : List (List String) :=
  evs.filterMap fun e =>
    match e with
    | Ev.execCall a => some a
    | _ => none

/-- Character-list test for "the first list starts the second". -/
def leadsWith : List Char → List Char → Bool
  | [], _ => true
  | _ :: _, [] => false
  | a :: as, b :: bs => a == b && leadsWith as bs

/-- Substring test on character lists: the needle occurs somewhere in the
haystack, as an unanchored regular-expression test does. -/
def hasSub (needle : List Char) : List Char → Bool
  | [] => leadsWith needle []
  | c :: rest => leadsWith needle (c :: rest) || hasSub needle rest

/-- The log callback installed via `getFFmpeg`: a message is copied to the
progress text exactly when the regular expression `frame=` matches it, that
is, when "frame=" occurs as a substring. -/
def onLogMessage (m : String) (st : AppState) : AppState :=
  if hasSub "frame=".toList m.toList then { st with progressText := m } else st

/-- States in which all execCall events of a trace happen while the busy flag
is set: the interpretation threads the state through the events and demands
`busy = true` at each engine invocation. -/
def execsRequireBusy (st : AppState) : List Ev → Prop
  | [] => True
  | Ev.execCall _ :: rest => st.busy = true ∧ execsRequireBusy st rest
  | e :: rest => execsRequireBusy (applyEv st e) rest

/-- All eight selectable inputs (four style keys, two values of the boolean
slow-motion sub-option) fed through `buildArgs`. -/
def allPrimaryArgs : List (List String) :=
  [buildArgs .cinematic true, buildArgs .cinematic false,
   buildArgs .action true, buildArgs .action false,
   buildArgs .aesthetic true, buildArgs .aesthetic false,
   buildArgs .realistic true, buildArgs .realistic false]

/-- An engine environment in which every awaited call succeeds. -/
def envOk : ExecEnv :=
  { loadError := none, writeError := none, execError := fun _ => none,
    readError := none, outputBlob := "out-blob" }

/-- An engine environment that loads and writes fine but fails every
`ffmpeg.exec` call and the final read. -/
def envExecFails : ExecEnv :=
  { loadError := none, writeError := none, execError := fun _ => some "boom",
    readError := some "no output", outputBlob := "out-blob" }

/-- A component state with a file picked and the given style selection. -/
def readyState (s : StyleKey) (m : Bool) : AppState :=
  { file := some "video.mp4", inputUrl := some (objectURL "video.mp4"),
    outputUrl := none, busy := false, progressText := "", style := s, slowMo := m }

/-- The initial component state: no file picked yet. -/
def idleState : AppState :=
  { file := none, inputUrl := none, outputUrl := none, busy := false,
    progressText := "", style := .cinematic, slowMo := true }

/-! ### Helper lemmas -/

theorem leadsWith_iff (n h : List Char) :
    leadsWith n h = true ↔ ∃ r, h = n ++ r := by
  induction n generalizing h with
  | nil => simp [leadsWith]
  | cons a as ih =>
    cases h with
    | nil => simp [leadsWith]
    | cons b bs =>
      simp only [leadsWith, Bool.and_eq_true, beq_iff_eq, ih, List.cons_append,
        List.cons.injEq]
      constructor
      · rintro ⟨rfl, r, rfl⟩
        exact ⟨r, rfl, rfl⟩
      · rintro ⟨r, rfl, rfl⟩
        exact ⟨rfl, r, rfl⟩

theorem hasSub_iff (n h : List Char) :
    hasSub n h = true ↔ ∃ l r, h = l ++ n ++ r := by
  induction h with
  | nil =>
    simp only [hasSub, leadsWith_iff]
    constructor
    · rintro ⟨r, hr⟩
      exact ⟨[], r, by simpa using hr⟩
    · rintro ⟨l, r, hr⟩
      rw [eq_comm, List.append_eq_nil, List.append_eq_nil] at hr
      exact ⟨[], by simp [hr.1.2]⟩
  | cons c rest ih =>
    simp only [hasSub, Bool.or_eq_true, leadsWith_iff, ih]
    constructor
    · rintro (⟨r, hr⟩ | ⟨l, r, hr⟩)
      · exact ⟨[], r, by simpa using hr⟩
      · exact ⟨c :: l, r, by simp [hr]⟩
    · rintro ⟨l, r, hr⟩
      cases l with
      | nil => exact Or.inl ⟨r, by simpa using hr⟩
      | cons x xs =>
        simp only [List.cons_append, List.cons.injEq] at hr
        exact Or.inr ⟨xs, r, hr.2⟩

theorem applyEvs_append (st : AppState) (l1 l2 : List Ev) :
    applyEvs st (l1 ++ l2) = applyEvs (applyEvs st l1) l2 := by
  simp [applyEvs, List.foldl_append]

theorem busy_after_trailer (st : AppState) (evs : List Ev) :
    (applyEvs st (evs ++ [Ev.setBusy false])).busy = false := by
  simp [applyEvs_append, applyEvs, applyEv]

theorem execCalls_head (env : ExecEnv) (st : AppState) (f : String)
    (hf : st.file = some f) (hl : env.loadError = none)
    (hw : env.writeError = none) :
    (execCallsOf (processTrace env st)).head? =
      some (buildArgs st.style st.slowMo) := by
  simp only [processTrace, execEvents, hf, hl, hw]
  simp [execCallsOf, List.filterMap_cons, List.filterMap_append]

/-! ### Claim theorems -/

/-- C1: when the primary engine invocation with the selected style's argument
list fails, exactly one fallback invocation with the style-chosen simplified
argument list is attempted — the run's engine calls are precisely the primary
list followed by the fallback list, with no further retry — and if that
fallback also fails the run ends showing the single status message
`"Failed: <message>"`. -/
theorem fallback_attempted_once_then_failure_surfaced (env : ExecEnv)
    (st : AppState) (f e1 : String) (hf : st.file = some f)
    (hl : env.loadError = none) (hw : env.writeError = none)
    (hp : env.execError (buildArgs st.style st.slowMo) = some e1) :
    execCallsOf (processTrace env st) =
      [buildArgs st.style st.slowMo, fallbackArgs st.style] ∧
    ∀ e2, env.execError (fallbackArgs st.style) = some e2 →
      (process env st).progressText = failedText e2 ∧
      (process env st).busy = false := by
  constructor
  · cases hq : env.execError (fallbackArgs st.style) <;>
      cases hr : env.readError <;>
        simp [processTrace, execEvents, exportEvents, execCallsOf, hf, hl, hw,
          hp, hq, hr, List.filterMap_cons, List.filterMap_append]
  · intro e2 hq
    constructor <;>
      simp [process, processTrace, execEvents, exportEvents, applyEvs, applyEv,
        hf, hl, hw, hp, hq, List.foldl_append]

/-- C1 witness: a run in which every engine call fails attempts exactly the
primary and fallback cinematic lists and surfaces the failure message. -/
theorem fallback_attempted_once_then_failure_surfaced_witness :
    execCallsOf (processTrace envExecFails (readyState .cinematic true)) =
      [buildArgs .cinematic true, fallbackArgs .cinematic] ∧
    ∀ e2, envExecFails.execError (fallbackArgs .cinematic) = some e2 →
      (process envExecFails (readyState .cinematic true)).progressText =
        failedText e2 ∧
      (process envExecFails (readyState .cinematic true)).busy = false :=
  fallback_attempted_once_then_failure_surfaced envExecFails
    (readyState .cinematic true) "video.mp4" "boom" rfl rfl rfl rfl

/-- C2: the Process button is disabled exactly when the busy flag is set or no
file is selected, and in every run of `process` each engine invocation happens
in a state whose busy flag is true — so a second run cannot be started while
one is in progress. -/
theorem busy_flag_gates_processing (env : ExecEnv) (st : AppState) :
    (processDisabled st = true ↔ (st.busy = true ∨ st.file = none)) ∧
    execsRequireBusy st (processTrace env st) := by
  constructor
  · cases hb : st.busy <;> cases hfile : st.file <;>
      simp [processDisabled, isReady, hb, hfile]
  · cases hf : st.file with
    | none => simp [processTrace, hf, execsRequireBusy]
    | some f =>
      cases hl : env.loadError with
      | some e =>
        simp [processTrace, hf, hl, execsRequireBusy, applyEv]
      | none =>
        cases hw : env.writeError with
        | some e =>
          simp [processTrace, hf, hl, hw, execsRequireBusy, applyEv]
        | none =>
          cases hp : env.execError (buildArgs st.style st.slowMo) with
          | none =>
            cases hr : env.readError <;>
              simp [processTrace, execEvents, exportEvents, hf, hl, hw, hp,
                hr, execsRequireBusy, applyEv]
          | some e1 =>
            cases hq : env.execError (fallbackArgs st.style) with
            | some e2 =>
              simp [processTrace, execEvents, exportEvents, hf, hl, hw, hp,
                hq, execsRequireBusy, applyEv]
            | none =>
              cases hr : env.readError <;>
                simp [processTrace, execEvents, exportEvents, hf, hl, hw, hp,
                  hq, hr, execsRequireBusy, applyEv]

/-- C3: over the four style keys and the boolean slow-motion sub-option the
lookup produces exactly five distinct hardcoded primary argument lists, and
each selection's list is handed to the engine call in some run. -/
theorem five_distinct_primary_arg_lists :
    allPrimaryArgs.dedup.length = 5 ∧
    ∀ (s : StyleKey) (m : Bool),
      buildArgs s m ∈ allPrimaryArgs ∧
      (execCallsOf (processTrace envOk (readyState s m))).head? =
        some (buildArgs s m) := by
  refine ⟨by decide, fun s m => ⟨?_, ?_⟩⟩
  · cases s <;> cases m <;> simp [allPrimaryArgs]
  · exact execCalls_head envOk (readyState s m) "video.mp4" rfl rfl rfl

/-- C4: the style catalog is an ordered list of exactly four records with
pairwise-distinct keys, nonempty display names and descriptions, and the
slow-motion sub-option is offered exactly for the cinematic key. -/
theorem style_catalog_shape :
    STYLES.length = 4 ∧
    STYLES.map StyleRec.key =
      [StyleKey.cinematic, StyleKey.action, StyleKey.aesthetic,
       StyleKey.realistic] ∧
    (STYLES.map StyleRec.key).Nodup ∧
    (∀ rec ∈ STYLES, rec.name ≠ "" ∧ rec.desc ≠ "") ∧
    ∀ k, showsSlowMoOption k = true ↔ k = StyleKey.cinematic := by
  refine ⟨rfl, rfl, by decide, by decide, fun k => ?_⟩
  cases k <;> decide

/-- C5: the argument list looked up by `buildArgs` for the selected style is
the first list handed to `ffmpeg.exec`, element for element; when the primary
invocation succeeds it is also the only one. -/
theorem primary_args_fed_verbatim (env : ExecEnv) (st : AppState) (f : String)
    (hf : st.file = some f) (hl : env.loadError = none)
    (hw : env.writeError = none) :
    (execCallsOf (processTrace env st)).head? =
      some (buildArgs st.style st.slowMo) ∧
    (env.execError (buildArgs st.style st.slowMo) = none →
      execCallsOf (processTrace env st) = [buildArgs st.style st.slowMo]) := by
  refine ⟨execCalls_head env st f hf hl hw, fun hp => ?_⟩
  cases hr : env.readError <;>
    simp [processTrace, execEvents, exportEvents, execCallsOf, hf, hl, hw,
      hp, hr, List.filterMap_cons, List.filterMap_append]

/-- C5 witness: a fully successful run feeds exactly the looked-up cinematic
list to the engine. -/
theorem primary_args_fed_verbatim_witness :
    (execCallsOf (processTrace envOk (readyState .cinematic true))).head? =
      some (buildArgs .cinematic true) ∧
    (envOk.execError (buildArgs .cinematic true) = none →
      execCallsOf (processTrace envOk (readyState .cinematic true)) =
        [buildArgs .cinematic true]) :=
  primary_args_fed_verbatim envOk (readyState .cinematic true) "video.mp4"
    rfl rfl rfl

/-- C6: the primary argument list is a function of the style selection alone:
two runs agreeing on style and slow-motion feed the same first list to the
engine, whatever their files, previews, progress texts or environments. -/
theorem primary_args_depend_only_on_selection (env1 env2 : ExecEnv)
    (st1 st2 : AppState) (f1 f2 : String)
    (h1 : st1.file = some f1) (h2 : st2.file = some f2)
    (hs : st1.style = st2.style) (hm : st1.slowMo = st2.slowMo)
    (hl1 : env1.loadError = none) (hw1 : env1.writeError = none)
    (hl2 : env2.loadError = none) (hw2 : env2.writeError = none) :
    (execCallsOf (processTrace env1 st1)).head? =
      (execCallsOf (processTrace env2 st2)).head? := by
  rw [execCalls_head env1 st1 f1 h1 hl1 hw1,
    execCalls_head env2 st2 f2 h2 hl2 hw2, hs, hm]

/-- C6 witness: two states differing in file, previews, busy flag, progress
text and environment but agreeing on the action style produce the same first
engine argument list. -/
theorem primary_args_depend_only_on_selection_witness :
    (execCallsOf (processTrace envOk (readyState .action false))).head? =
      (execCallsOf (processTrace envExecFails
        ⟨some "other.mp4", none, some "blob:old", true, "t", .action,
          false⟩)).head? :=
  primary_args_depend_only_on_selection envOk envExecFails
    (readyState .action false)
    ⟨some "other.mp4", none, some "blob:old", true, "t", .action, false⟩
    "video.mp4" "other.mp4" rfl rfl rfl rfl rfl rfl rfl rfl

/-- C7: a log line is copied to the progress text exactly when it contains
the substring "frame=": if some decomposition exhibits the substring the text
becomes the message, and otherwise the state is unchanged. -/
theorem progress_scrapes_frame_lines (m : String) (st : AppState) :
    ((∃ l r : List Char, m.toList = l ++ "frame=".toList ++ r) →
      onLogMessage m st = { st with progressText := m }) ∧
    ((¬ ∃ l r : List Char, m.toList = l ++ "frame=".toList ++ r) →
      onLogMessage m st = st) := by
  constructor
  · intro hex
    have h1 : hasSub "frame=".toList m.toList = true :=
      (hasSub_iff "frame=".toList m.toList).mpr hex
    simp only [onLogMessage, h1]
    rfl
  · intro hex
    have h2 : hasSub "frame=".toList m.toList = false := by
      by_contra hne
      exact hex ((hasSub_iff "frame=".toList m.toList).mp
        (eq_true_of_ne_false hne))
    simp only [onLogMessage, h2]
    rfl

/-- C8: whatever the engine environment does, a `process` run on a selected
file ends with the busy flag cleared: the trailing `finally` event always
resets it. -/
theorem busy_reset_after_process (env : ExecEnv) (st : AppState) (f : String)
    (hf : st.file = some f) : (process env st).busy = false := by
  simp only [process, processTrace, hf]
  simp only [applyEvs, List.foldl_cons]
  exact busy_after_trailer _ _

/-- C8 witness: a run in which every engine call fails still ends with the
busy flag cleared. -/
theorem busy_reset_after_process_witness :
    (process envExecFails (readyState .cinematic true)).busy = false :=
  busy_reset_after_process envExecFails (readyState .cinematic true)
    "video.mp4" rfl

/-- C9: picking a file — through the file input or drag-and-drop — stores the
new file, points the input preview at its object URL, clears the output URL,
and leaves the style, the slow-motion sub-option, the busy flag and the
progress text unchanged. -/
theorem pick_file_replaces_input_and_clears_output (f : String)
    (st : AppState) :
    onPickFile f st =
      { st with
          file := some f
          inputUrl := some (objectURL f)
          outputUrl := none } ∧
    (onPickFile f st).style = st.style ∧
    (onPickFile f st).slowMo = st.slowMo ∧
    (onPickFile f st).busy = st.busy ∧
    (onPickFile f st).progressText = st.progressText ∧
    onFileInput (some f) st = onPickFile f st ∧
    onDrop (some f) st = onPickFile f st :=
  ⟨rfl, rfl, rfl, rfl, rfl, rfl, rfl⟩

/-- C10: calling `process` with no file selected changes nothing and invokes
the engine on no argument list at all. -/
theorem process_without_file_is_noop (env : ExecEnv) (st : AppState)
    (hf : st.file = none) :
    process env st = st ∧ execCallsOf (processTrace env st) = [] := by
  constructor <;> simp [process, processTrace, execCallsOf, applyEvs, hf]

/-- C10 witness: `process` on the initial state is the identity and calls the
engine never. -/
theorem process_without_file_is_noop_witness :
    process envOk idleState = idleState ∧
    execCallsOf (processTrace envOk idleState) = [] :=
  process_without_file_is_noop envOk idleState rfl

end VideoStyler
